import Mathlib

/-!
Verification of the Midea E1 device adapter
(`src/midealocal/devices/e1/__init__.py`).

The file embeds the attribute schema, the lookup tables, the response
decoder (`process_message`) and the command builder (`set_attribute`)
as executable Lean definitions, and proves the spec's claims about them.
-/

namespace MideaE1

/-- A Python attribute value as used by the E1 adapter: `None`, a bool,
an int, or a string label.  `null` embeds Python's `None`. -/
inductive AttrValue where
  | null
  | bool (b : Bool)
  | int (n : Int)
  | str (s : String)
  deriving DecidableEq, Repr

/-- `True` iff the value is a Python `bool` (`isinstance(value, bool)`). -/
def AttrValue.isBool : AttrValue → Bool
  | .bool _ => true
  | _ => false

/-- The schema: the ordered attribute dictionary passed to the base-class
constructor in `MideaE1Device.__init__` (source lines 88-124), pairing each
attribute name with its default value. -/
def defaultAttributes : List (String × AttrValue) :=
  [ ("power", .bool false),
    ("status", .null),
    ("mode", .int 0),
    ("additional", .int 0),
    ("uv", .bool false),
    ("dry", .null),
    ("dry_status", .bool false),
    ("door", .bool false),
    ("rinse_aid", .bool false),
    ("salt", .bool false),
    ("child_lock", .bool false),
    ("storage", .bool false),
    ("storage_status", .bool false),
    ("time_remaining", .null),
    ("progress", .null),
    ("storage_remaining", .null),
    ("temperature", .null),
    ("humidity", .null),
    ("waterswitch", .bool false),
    ("water_lack", .bool false),
    ("error_code", .null),
    ("softwater", .int 0),
    ("wrong_operation", .null),
    ("bright", .int 0),
    ("door_auto_open", .bool false),
    ("wash_region", .int 0),
    ("version", .null),
    ("air", .bool false),
    ("air_status", .bool false),
    ("air_set_hour", .null),
    ("air_left_hour", .null),
    ("ion_level", .null),
    ("ion_status", .null),
    ("ion_time_remaining", .null) ]

/-- The `self._modes` table (mode code to label). -/
def modesTable : List (Int × String) :=
  [ (0x00, "Neutral Gear"),
    (0x01, "Auto Wash"),
    (0x02, "Strong Wash"),
    (0x03, "Standard Wash"),
    (0x04, "ECO Wash"),
    (0x05, "Glass Wash"),
    (0x06, "90 Min Wash"),
    (0x07, "Fast Wash"),
    (0x08, "Soak Wash"),
    (0x09, "1 Hour Wash"),
    (0x0A, "Self Clean"),
    (0x0B, "Fruit Wash"),
    (0x0C, "Self Define"),
    (0x0D, "Germ"),
    (0x0E, "Bowl Wash"),
    (0x0F, "Kill Germ"),
    (0x10, "Sea Food Wash"),
    (0x12, "Hot Pot Wash"),
    (0x13, "Quiet Night Wash"),
    (0x14, "Less Wash"),
    (0x16, "Oil Net Wash"),
    (0x19, "Cloud Wash") ]

/-- The `self._status` table (status code to label). -/
def statusTable : List (Int × String) :=
  [ (0x00, "Power Off"),
    (0x01, "Cancel"),
    (0x02, "Delay"),
    (0x03, "Running"),
    (0x04, "Error"),
    (0x05, "Soft Gear") ]

/-- The `self._progress` positional label list. -/
def progressList : List String :=
  ["Idle", "Pre-wash", "Wash", "Rinse", "Dry", "Complete"]

/-- The `self._additional` table (defined by the adapter, not consulted by
`process_message`). -/
def additionalTable : List (Int × String) :=
  [ (0x00, "None"),
    (0x01, "Extra Drying"),
    (0x03, "Express"),
    (0x04, "Power Wash") ]

/-- The `self._wash_region` table (defined by the adapter, not consulted by
`process_message`). -/
def washRegionTable : List (Int × String) :=
  [ (0x00, "Both Zones"),
    (0x01, "Top Zone"),
    (0x02, "Bottom Zone") ]

/-- Modelled from the spec: the base `MideaDevice` class (not under `src/`)
stores the schema dictionary as the device's attribute snapshot at
construction, so a fresh `MideaE1Device` holds exactly the schema defaults. -/
def freshSnapshot : List (String × AttrValue) := defaultAttributes

/-- Python `dict` read `d[k]` / `d.get(k)` on a string-keyed ordered dict,
embedded as association-list lookup. -/
def getAttr (attrs : List (String × AttrValue)) (k : String) : Option AttrValue :=
  List.lookup k attrs

/-- Python `dict` assignment `d[k] = v` for a key already present: every
entry whose key is `k` is overwritten, the key order is unchanged. -/
def setA (attrs : List (String × AttrValue)) (k : String) (v : AttrValue) :
    List (String × AttrValue) :=
  attrs.map fun p => if p.1 = k then (k, v) else p

/-- Python list indexing `l[i]` on an `Int` index: non-negative indices count
from the front, negative indices from the back, and anything outside
`[-len, len)` is an `IndexError` (`none`). -/
def pyIdx (l : List String) (i : Int) : Option String :=
  if 0 ≤ i then l.get? i.toNat
  else if 0 ≤ i + l.length then l.get? (i + l.length).toNat
  else none

/-- Python `bool` is an `int` subtype: the key a value presents to an
int-keyed dict or an int comparison (`True == 1`, `False == 0`); strings and
`None` present no int key. -/
def asIntKey : AttrValue → Option Int
  | .int n => some n
  | .bool b => some (if b then 1 else 0)
  | _ => none

/-- Wrap an optional label as an attribute value: `dict.get` returning
`None` becomes the absent value. -/
def optToAttr : Option String → AttrValue
  | some s => .str s
  | none => .null

/-- The per-attribute transform of the `process_message` loop body
(source lines 183-193): `status` and `mode` go through `dict.get` on their
tables (missing code yields `None`); `progress` is guarded by
`value < len(self._progress)` and then indexed positionally (a negative
index deep enough raises `IndexError`, a non-int raises `TypeError` at the
comparison — both embedded as `.error ()`); every other attribute passes
through unchanged. -/
def decodeAttr (name : String) (v : AttrValue) : Except Unit AttrValue :=
  if name = "status" then
    match asIntKey v with
    | some n => .ok (optToAttr (List.lookup n statusTable))
    | none => .ok .null
  else if name = "progress" then
    match asIntKey v with
    | some n =>
        if n < (progressList.length : Int) then
          match pyIdx progressList n with
          | some s => .ok (.str s)
          | none => .error ()
        else .ok .null
    | none => .error ()
  else if name = "mode" then
    match asIntKey v with
    | some n => .ok (optToAttr (List.lookup n modesTable))
    | none => .ok .null
  else .ok v

/-- Modelled from the spec: a decoded `MessageE1Response` (the `.message`
module is not under `src/`) exposes, per attribute name, either a present
raw value (`hasattr`/`getattr`) or nothing. -/
def Message : Type := String → Option AttrValue

/-- A response carrying exactly one field. -/
def singleMsg (k : String) (v : AttrValue) : Message :=
  fun n => if n = k then some v else none

/-- The `process_message` loop (source lines 179-195): fold over the
snapshot's keys in order; for each key present on the response, decode and
store the value and append it to the delta.  The first component is the
snapshot after the call (partially updated if an exception escaped), the
second is the returned delta or the exception. -/
def processGo (ks : List String) (msg : Message) (attrs : List (String × AttrValue)) :
    List (String × AttrValue) × Except Unit (List (String × AttrValue)) :=
  match ks with
  | [] => (attrs, .ok [])
  | k :: ks =>
    match msg k with
    | none => processGo ks msg attrs
    | some v =>
      match decodeAttr k v with
      | .error e => (attrs, .error e)
      | .ok v' =>
        match processGo ks msg (setA attrs k v') with
        | (a, .error e) => (a, .error e)
        | (a, .ok d) => (a, .ok ((k, v') :: d))

/-- `MideaE1Device.process_message`: iterates the current snapshot's keys. -/
def process_message (attrs : List (String × AttrValue)) (msg : Message) :
    List (String × AttrValue) × Except Unit (List (String × AttrValue)) :=
  processGo (attrs.map Prod.fst) msg attrs

/-- The outbound command objects built by `set_attribute`
(`MessagePower` / `MessageLock` / `MessageStorage` with their payload field
set; modelled from the spec, the `.message` module being outside `src/`). -/
inductive OutboundCommand where
  | power (value : Bool)
  | lock (value : Bool)
  | storage (value : Bool)
  deriving DecidableEq, Repr

/-- `MideaE1Device.set_attribute` (source lines 197-213): first the
`isinstance(value, bool)` check — a non-bool raises
`ValueWrongType("[e1] Expected bool")` before anything else — then dispatch
on the attribute name, building and sending one command for `power`,
`child_lock` or `storage`, and doing nothing otherwise.  Result: the raised
error if any, the list of commands handed to `build_send`, and the snapshot
(which the method never touches). -/
def set_attribute (attrs : List (String × AttrValue)) (attr : String) (value : AttrValue) :
    Option String × List OutboundCommand × List (String × AttrValue) :=
  match value with
  | .bool b =>
    if attr = "power" then (none, [.power b], attrs)
    else if attr = "child_lock" then (none, [.lock b], attrs)
    else if attr = "storage" then (none, [.storage b], attrs)
    else (none, [], attrs)
  | _ => (some "[e1] Expected bool", [], attrs)

/-- The writable attribute names dispatched by `set_attribute`. -/
def writableAttributes : List String := ["power", "child_lock", "storage"]

/-- Every entry of the dictionary with key `k` carries value `v`. -/
def allAt (a : List (String × AttrValue)) (k : String) (v : AttrValue) : Prop :=
  ∀ p ∈ a, p.1 = k → p.2 = v

/-! ### Helper lemmas about the snapshot dictionary -/

theorem setA_map_fst (a : List (String × AttrValue)) (k : String) (v : AttrValue) :
    (setA a k v).map Prod.fst = a.map Prod.fst := by
  simp only [setA, List.map_map]
  apply List.map_congr_left
  intro p _
  by_cases h : p.1 = k <;> simp [h]

theorem getAttr_setA_ne (a : List (String × AttrValue)) (j k : String) (v : AttrValue)
    (h : j ≠ k) : getAttr (setA a j v) k = getAttr a k := by
  induction a with
  | nil => rfl
  | cons p t ih =>
      obtain ⟨pk, pv⟩ := p
      have hstep : setA ((pk, pv) :: t) j v
          = (if pk = j then (j, v) else (pk, pv)) :: setA t j v := by
        simp [setA]
      by_cases hp : pk = j
      · have hk1 : (k == j) = false := beq_eq_false_iff_ne.mpr (Ne.symm h)
        have hk2 : (k == pk) = false := by rw [hp]; exact hk1
        simp only [getAttr] at ih ⊢
        rw [hstep, if_pos hp, List.lookup_cons, List.lookup_cons, hk1, hk2]
        exact ih
      · simp only [getAttr] at ih ⊢
        rw [hstep, if_neg hp, List.lookup_cons, List.lookup_cons]
        cases hkp : (k == pk)
        · simp only []
          exact ih
        · rfl

/-! ### Helper lemmas about the decoding loop -/

theorem processGo_no_fields (ks : List String) (msg : Message)
    (a : List (String × AttrValue)) (h : ∀ k ∈ ks, msg k = none) :
    processGo ks msg a = (a, .ok []) := by
  induction ks with
  | nil => rfl
  | cons k t ih =>
      have hk := h k (by simp)
      simp only [processGo, hk]
      exact ih fun j hj => h j (by simp [hj])

theorem processGo_single_ok (ks : List String) : ∀ (k : String) (v v' : AttrValue),
    ks.Nodup → k ∈ ks → decodeAttr k v = Except.ok v' →
    ∀ a : List (String × AttrValue),
    processGo ks (singleMsg k v) a = (setA a k v', .ok [(k, v')]) := by
  induction ks with
  | nil =>
      intro k v v' _ hmem _ a
      cases hmem
  | cons j t ih =>
      intro k v v' hnd hmem hdec a
      by_cases hj : j = k
      · subst hj
        have hm : singleMsg j v j = some v := by simp [singleMsg]
        have hni : j ∉ t := (List.nodup_cons.mp hnd).1
        have hrest : processGo t (singleMsg j v) (setA a j v') = (setA a j v', .ok []) :=
          processGo_no_fields t _ _ fun x hx => by
            simp only [singleMsg, ite_eq_right_iff]
            intro hxx
            exact absurd (hxx ▸ hx) hni
        simp only [processGo, hm, hdec, hrest]
      · have hm : singleMsg k v j = none := by simp [singleMsg, hj]
        have hmem' : k ∈ t := by
          rcases List.mem_cons.mp hmem with h1 | h1
          · exact absurd h1.symm hj
          · exact h1
        simp only [processGo, hm]
        exact ih k v v' (List.nodup_cons.mp hnd).2 hmem' hdec a

theorem processGo_single_err (ks : List String) : ∀ (k : String) (v : AttrValue),
    k ∈ ks → decodeAttr k v = Except.error () →
    ∀ a : List (String × AttrValue),
    processGo ks (singleMsg k v) a = (a, .error ()) := by
  induction ks with
  | nil =>
      intro k v hmem _ a
      cases hmem
  | cons j t ih =>
      intro k v hmem hdec a
      by_cases hj : j = k
      · subst hj
        have hm : singleMsg j v j = some v := by simp [singleMsg]
        simp only [processGo, hm, hdec]
      · have hm : singleMsg k v j = none := by simp [singleMsg, hj]
        have hmem' : k ∈ t := by
          rcases List.mem_cons.mp hmem with h1 | h1
          · exact absurd h1.symm hj
          · exact h1
        simp only [processGo, hm]
        exact ih k v hmem' hdec a

theorem process_message_single_ok (k : String) (v v' : AttrValue)
    (hmem : k ∈ freshSnapshot.map Prod.fst)
    (hdec : decodeAttr k v = Except.ok v') :
    process_message freshSnapshot (singleMsg k v) =
      (setA freshSnapshot k v', Except.ok [(k, v')]) :=
  processGo_single_ok _ k v v' (by decide) hmem hdec freshSnapshot

theorem process_message_single_err (k : String) (v : AttrValue)
    (hmem : k ∈ freshSnapshot.map Prod.fst)
    (hdec : decodeAttr k v = Except.error ()) :
    process_message freshSnapshot (singleMsg k v) = (freshSnapshot, .error ()) :=
  processGo_single_err _ k v hmem hdec freshSnapshot

/-! ### Helper lemmas about the per-attribute transforms -/

theorem decodeAttr_mode (c : Int) :
    decodeAttr "mode" (.int c) = .ok (optToAttr (List.lookup c modesTable)) := rfl

theorem decodeAttr_status (c : Int) :
    decodeAttr "status" (.int c) = .ok (optToAttr (List.lookup c statusTable)) := rfl

theorem pyIdx_nonneg (l : List String) (c : Int) (h0 : 0 ≤ c) (h : c.toNat < l.length) :
    pyIdx l c = some (l.getD c.toNat "") := by
  simp only [pyIdx, if_pos h0]
  rw [List.get?_eq_get h, List.getD_eq_getElem l "" h]
  rfl

theorem pyIdx_neg (l : List String) (c : Int) (hneg : c < 0) (h : 0 ≤ c + l.length) :
    pyIdx l c = some (l.getD (c + l.length).toNat "") := by
  have h0 : ¬ 0 ≤ c := by omega
  have hlt : (c + l.length).toNat < l.length := by omega
  simp only [pyIdx, if_neg h0, if_pos h]
  rw [List.get?_eq_get hlt, List.getD_eq_getElem l "" hlt]
  rfl

theorem pyIdx_neg_err (l : List String) (c : Int) (h : c + l.length < 0) :
    pyIdx l c = none := by
  have h0 : ¬ 0 ≤ c := by omega
  have h1 : ¬ 0 ≤ c + l.length := by omega
  simp [pyIdx, h0, h1]

theorem decodeAttr_progress_nonneg (c : Int) (h0 : 0 ≤ c) (hlt : c < 6) :
    decodeAttr "progress" (.int c) = .ok (.str (progressList.getD c.toNat "")) := by
  have hl : pyIdx progressList c = some (progressList.getD c.toNat "") :=
    pyIdx_nonneg progressList c h0 (by simp [progressList]; omega)
  simp [decodeAttr, asIntKey, progressList] at hl ⊢
  simp [hl, show c < 6 from hlt]

theorem decodeAttr_progress_ge (c : Int) (h : 6 ≤ c) :
    decodeAttr "progress" (.int c) = .ok AttrValue.null := by
  simp [decodeAttr, asIntKey, progressList, show ¬ c < 6 by omega]

theorem decodeAttr_progress_neg (c : Int) (hge : -6 ≤ c) (hlt : c < 0) :
    decodeAttr "progress" (.int c) = .ok (.str (progressList.getD (c + 6).toNat "")) := by
  have hl : pyIdx progressList c = some (progressList.getD (c + 6).toNat "") := by
    have := pyIdx_neg progressList c hlt (by simp [progressList]; omega)
    simpa [progressList] using this
  simp [decodeAttr, asIntKey, progressList] at hl ⊢
  simp [hl, show c < 6 by omega]

theorem decodeAttr_progress_neg_err (c : Int) (h : c < -6) :
    decodeAttr "progress" (.int c) = .error () := by
  have hl : pyIdx progressList c = none :=
    pyIdx_neg_err progressList c (by simp [progressList]; omega)
  simp [decodeAttr, asIntKey, progressList] at hl ⊢
  simp [hl, show c < 6 by omega]

/-! ### Structure of the returned delta -/

theorem processGo_delta_keys (ks : List String) :
    ∀ (msg : Message) (a r d : List (String × AttrValue)),
    processGo ks msg a = (r, Except.ok d) →
    d.map Prod.fst = ks.filter fun k => (msg k).isSome := by
  induction ks with
  | nil =>
      intro msg a r d h
      simp only [processGo] at h
      injection h with h1 h2
      injection h2 with h3
      rw [← h3]
      rfl
  | cons k t ih =>
      intro msg a r d h
      cases hm : msg k with
      | none =>
          simp only [processGo, hm] at h
          have hf : (msg k).isSome = false := by rw [hm]; rfl
          simp only [List.filter_cons, hf, Bool.false_eq_true, if_false]
          exact ih msg a r d h
      | some v =>
          cases hd : decodeAttr k v with
          | error e =>
              simp only [processGo, hm, hd] at h
              injection h with h1 h2
              cases h2
          | ok v' =>
              simp only [processGo, hm, hd] at h
              rcases hgo : processGo t msg (setA a k v') with ⟨a2, r2⟩
              rw [hgo] at h
              cases r2 with
              | error e =>
                  injection h with h1 h2
                  cases h2
              | ok d2 =>
                  injection h with h1 h2
                  injection h2 with h3
                  rw [← h3]
                  have ht : (msg k).isSome = true := by rw [hm]; rfl
                  simp only [List.filter_cons, ht, if_true, List.map_cons]
                  rw [ih msg (setA a k v') a2 d2 hgo]

theorem processGo_absent (ks : List String) :
    ∀ (msg : Message) (a : List (String × AttrValue)) (k : String), msg k = none →
    getAttr (processGo ks msg a).1 k = getAttr a k := by
  induction ks with
  | nil =>
      intro msg a k _
      rfl
  | cons j t ih =>
      intro msg a k h
      cases hm : msg j with
      | none =>
          simp only [processGo, hm]
          exact ih msg a k h
      | some v =>
          cases hd : decodeAttr j v with
          | error e => simp only [processGo, hm, hd]
          | ok v' =>
              have hjk : j ≠ k := by
                intro hh
                rw [hh, h] at hm
                cases hm
              simp only [processGo, hm, hd]
              rcases hgo : processGo t msg (setA a j v') with ⟨a2, r2⟩
              have h1 : getAttr a2 k = getAttr (setA a j v') k := by
                have h2 := ih msg (setA a j v') k h
                rw [hgo] at h2
                exact h2
              cases r2 <;> simp only [] <;> rw [h1, getAttr_setA_ne _ _ _ _ hjk]

/-! ### Idempotence machinery -/

theorem setA_eq_of_allAt (a : List (String × AttrValue)) (k : String) (v : AttrValue)
    (h : allAt a k v) : setA a k v = a := by
  unfold setA
  conv_rhs => rw [← List.map_id a]
  apply List.map_congr_left
  intro p hp
  obtain ⟨pk, pv⟩ := p
  by_cases h1 : pk = k
  · have h2 : pv = v := h ⟨pk, pv⟩ hp h1
    simp [h1, h2]
  · simp [h1]

theorem allAt_setA_self (a : List (String × AttrValue)) (k : String) (v : AttrValue) :
    allAt (setA a k v) k v := by
  intro p hp hk
  simp only [setA, List.mem_map] at hp
  obtain ⟨q, _, hfq⟩ := hp
  by_cases h1 : q.1 = k
  · rw [if_pos h1] at hfq
    rw [← hfq]
  · rw [if_neg h1] at hfq
    subst hfq
    exact absurd hk h1

theorem allAt_setA (a : List (String × AttrValue)) (k : String) (v : AttrValue)
    (j : String) (w : AttrValue) (h : allAt a k v) (hjw : j = k → w = v) :
    allAt (setA a j w) k v := by
  intro p hp hk
  simp only [setA, List.mem_map] at hp
  obtain ⟨q, hq, hfq⟩ := hp
  by_cases h1 : q.1 = j
  · rw [if_pos h1] at hfq
    subst hfq
    exact hjw hk
  · rw [if_neg h1] at hfq
    subst hfq
    exact h q hq hk

theorem allAt_processGo (ks : List String) :
    ∀ (msg : Message) (k : String) (v v' : AttrValue) (a : List (String × AttrValue)),
    allAt a k v' → msg k = some v → decodeAttr k v = Except.ok v' →
    allAt (processGo ks msg a).1 k v' := by
  induction ks with
  | nil =>
      intro msg k v v' a h _ _
      exact h
  | cons j t ih =>
      intro msg k v v' a h hm hd
      cases hmj : msg j with
      | none =>
          simp only [processGo, hmj]
          exact ih msg k v v' a h hm hd
      | some w =>
          cases hdj : decodeAttr j w with
          | error e =>
              simp only [processGo, hmj, hdj]
              exact h
          | ok w' =>
              have hstep : allAt (setA a j w') k v' := by
                apply allAt_setA a k v' j w' h
                intro hjk
                subst hjk
                rw [hm] at hmj
                injection hmj with hvw
                rw [← hvw] at hdj
                rw [hd] at hdj
                injection hdj with hww
                exact hww.symm
              simp only [processGo, hmj, hdj]
              rcases hgo : processGo t msg (setA a j w') with ⟨a2, r2⟩
              have h2 := ih msg k v v' (setA a j w') hstep hm hd
              rw [hgo] at h2
              cases r2 <;> exact h2

theorem processGo_map_fst (ks : List String) :
    ∀ (msg : Message) (a : List (String × AttrValue)),
    (processGo ks msg a).1.map Prod.fst = a.map Prod.fst := by
  induction ks with
  | nil =>
      intro msg a
      rfl
  | cons j t ih =>
      intro msg a
      cases hm : msg j with
      | none =>
          simp only [processGo, hm]
          exact ih msg a
      | some v =>
          cases hd : decodeAttr j v with
          | error e => simp only [processGo, hm, hd]
          | ok v' =>
              simp only [processGo, hm, hd]
              rcases hgo : processGo t msg (setA a j v') with ⟨a2, r2⟩
              have h2 := ih msg (setA a j v')
              rw [hgo] at h2
              cases r2 <;> simp only [] <;> rw [h2, setA_map_fst]

theorem processGo_idem (ks : List String) :
    ∀ (msg : Message) (a : List (String × AttrValue)),
    processGo ks msg (processGo ks msg a).1 = processGo ks msg a := by
  induction ks with
  | nil =>
      intro msg a
      rfl
  | cons j t ih =>
      intro msg a
      cases hm : msg j with
      | none =>
          simp only [processGo, hm]
          exact ih msg a
      | some v =>
          cases hd : decodeAttr j v with
          | error e => simp only [processGo, hm, hd]
          | ok v' =>
              rcases hgo : processGo t msg (setA a j v') with ⟨a2, r2⟩
              have hall : allAt a2 j v' := by
                have h2 := allAt_processGo t msg j v v' (setA a j v')
                  (allAt_setA_self a j v') hm hd
                rw [hgo] at h2
                exact h2
              have hsetA : setA a2 j v' = a2 := setA_eq_of_allAt a2 j v' hall
              have hidem : processGo t msg a2 = (a2, r2) := by
                have h3 := ih msg (setA a j v')
                simp only [hgo] at h3
                exact h3
              cases r2 with
              | error e =>
                  simp only [processGo, hm, hd, hgo, hsetA, hidem]
              | ok d2 =>
                  simp only [processGo, hm, hd, hgo, hsetA, hidem]

/-! ### The claims -/

/-- C1, counterexample: `mode` is an enumerated attribute (its codes are
decoded through the mode table), yet its schema default is the integer `0`,
not the absent value — so the claim that no numeric/enumerated default is
zero fails on the schema. -/
theorem c1_counterexample :
    getAttr freshSnapshot "mode" = some (AttrValue.int 0) ∧
    AttrValue.int 0 ≠ AttrValue.null ∧
    decodeAttr "mode" (AttrValue.int 0) = Except.ok (AttrValue.str "Neutral Gear") := by
  refine ⟨rfl, by decide, rfl⟩

/-- C1, amended: a freshly constructed device's snapshot equals the
schema-declared defaults entry for entry; every attribute's default is
either an explicit boolean, the explicit absent value, or — for the five
attributes `mode`, `additional`, `softwater`, `bright` and `wash_region` —
the integer `0`. -/
theorem c1_fresh_snapshot_defaults :
    freshSnapshot = defaultAttributes ∧
    (defaultAttributes.all fun p => getAttr freshSnapshot p.1 == some p.2) = true ∧
    (defaultAttributes.all fun p =>
      (p.2 == AttrValue.null) || p.2.isBool ||
      (decide (p.1 ∈ (["mode", "additional", "softwater", "bright",
          "wash_region"] : List String)) && (p.2 == AttrValue.int 0))) = true := by
  refine ⟨rfl, by decide, by decide⟩

/-- C2: `set_attribute` called with any non-boolean value raises
`ValueWrongType` with the message `"[e1] Expected bool"` (naming the
expected type), builds and sends no command, and leaves the snapshot
untouched — the check precedes every side effect. -/
theorem c2_set_attribute_non_bool (attrs : List (String × AttrValue)) (attr : String)
    (v : AttrValue) (h : v.isBool = false) :
    set_attribute attrs attr v = (some "[e1] Expected bool", [], attrs) := by
  cases v with
  | bool b => simp [AttrValue.isBool] at h
  | null => rfl
  | int n => rfl
  | str s => rfl

/-- C2, witness: `set_attribute('power', 1)` fails with the type error and
produces no command. -/
theorem c2_witness :
    (AttrValue.int 1).isBool = false ∧
    set_attribute freshSnapshot "power" (AttrValue.int 1)
      = (some "[e1] Expected bool", [], freshSnapshot) :=
  ⟨rfl, c2_set_attribute_non_bool freshSnapshot "power" (AttrValue.int 1) rfl⟩

/-- C3, counterexample: `temperature` is outside the writable set, yet
`set_attribute('temperature', 1)` is not a silent no-op — it raises the
value-type error, because the boolean check runs before the writability
dispatch. -/
theorem c3_counterexample :
    "temperature" ∉ writableAttributes ∧
    (set_attribute freshSnapshot "temperature" (AttrValue.int 1)).1
      = some "[e1] Expected bool" := by
  refine ⟨by decide, rfl⟩

/-- C3, amended: for every boolean value, `set_attribute` on an attribute
name outside the writable set is a silent no-op — no error, no command, no
snapshot change; a non-boolean value, however, raises the value-type error
even for such names. -/
theorem c3_non_writable_bool_noop (attrs : List (String × AttrValue)) (attr : String)
    (b : Bool) (h : attr ∉ writableAttributes) :
    set_attribute attrs attr (AttrValue.bool b) = (none, [], attrs) := by
  have h1 : ¬ attr = "power" := fun hh => h (by rw [hh]; decide)
  have h2 : ¬ attr = "child_lock" := fun hh => h (by rw [hh]; decide)
  have h3 : ¬ attr = "storage" := fun hh => h (by rw [hh]; decide)
  simp [set_attribute, h1, h2, h3]

/-- C3, witness: `set_attribute('temperature', True)` is silently
ignored. -/
theorem c3_witness :
    "temperature" ∉ writableAttributes ∧
    set_attribute freshSnapshot "temperature" (AttrValue.bool true)
      = (none, [], freshSnapshot) :=
  ⟨by decide, c3_non_writable_bool_noop freshSnapshot "temperature" true (by decide)⟩

/-- C4: a mode or status code present in the corresponding table decodes to
the matching label, a code absent from the table (such as mode `0x11`)
decodes to the absent value, and in both cases `process_message` returns
normally with the decoded value stored and reported. -/
theorem c4_mode_status_lookup (c : Int) :
    (∀ l : String, List.lookup c modesTable = some l →
      process_message freshSnapshot (singleMsg "mode" (AttrValue.int c))
        = (setA freshSnapshot "mode" (AttrValue.str l),
           Except.ok [("mode", AttrValue.str l)])) ∧
    (List.lookup c modesTable = none →
      process_message freshSnapshot (singleMsg "mode" (AttrValue.int c))
        = (setA freshSnapshot "mode" AttrValue.null,
           Except.ok [("mode", AttrValue.null)])) ∧
    (∀ l : String, List.lookup c statusTable = some l →
      process_message freshSnapshot (singleMsg "status" (AttrValue.int c))
        = (setA freshSnapshot "status" (AttrValue.str l),
           Except.ok [("status", AttrValue.str l)])) ∧
    (List.lookup c statusTable = none →
      process_message freshSnapshot (singleMsg "status" (AttrValue.int c))
        = (setA freshSnapshot "status" AttrValue.null,
           Except.ok [("status", AttrValue.null)])) := by
  refine ⟨?_, ?_, ?_, ?_⟩
  · intro l hl
    refine process_message_single_ok "mode" _ _ (by decide) ?_
    rw [decodeAttr_mode, hl]
    rfl
  · intro hl
    refine process_message_single_ok "mode" _ _ (by decide) ?_
    rw [decodeAttr_mode, hl]
    rfl
  · intro l hl
    refine process_message_single_ok "status" _ _ (by decide) ?_
    rw [decodeAttr_status, hl]
    rfl
  · intro hl
    refine process_message_single_ok "status" _ _ (by decide) ?_
    rw [decodeAttr_status, hl]
    rfl

/-- C4, witness: mode `0x01` decodes to `"Auto Wash"`, mode `0x11` (absent
from the table) to the absent value; status `0x03` decodes to `"Running"`,
status `0x09` (absent) to the absent value. -/
theorem c4_witness :
    (process_message freshSnapshot (singleMsg "mode" (AttrValue.int 1))
       = (setA freshSnapshot "mode" (AttrValue.str "Auto Wash"),
          Except.ok [("mode", AttrValue.str "Auto Wash")])) ∧
    (process_message freshSnapshot (singleMsg "mode" (AttrValue.int 0x11))
       = (setA freshSnapshot "mode" AttrValue.null,
          Except.ok [("mode", AttrValue.null)])) ∧
    (process_message freshSnapshot (singleMsg "status" (AttrValue.int 3))
       = (setA freshSnapshot "status" (AttrValue.str "Running"),
          Except.ok [("status", AttrValue.str "Running")])) ∧
    (process_message freshSnapshot (singleMsg "status" (AttrValue.int 9))
       = (setA freshSnapshot "status" AttrValue.null,
          Except.ok [("status", AttrValue.null)])) :=
  ⟨(c4_mode_status_lookup 1).1 "Auto Wash" (by decide),
   (c4_mode_status_lookup 0x11).2.1 (by decide),
   (c4_mode_status_lookup 3).2.2.1 "Running" (by decide),
   (c4_mode_status_lookup 9).2.2.2 (by decide)⟩

/-- C5: a progress code is a positional index into the ordered progress
label list: an in-bounds index stores and reports the label at that
position, an index at least the list length stores and reports the absent
value. -/
theorem c5_progress_positional (c : Int) :
    (0 ≤ c → c < (progressList.length : Int) →
      process_message freshSnapshot (singleMsg "progress" (AttrValue.int c))
        = (setA freshSnapshot "progress" (AttrValue.str (progressList.getD c.toNat "")),
           Except.ok [("progress", AttrValue.str (progressList.getD c.toNat ""))])) ∧
    ((progressList.length : Int) ≤ c →
      process_message freshSnapshot (singleMsg "progress" (AttrValue.int c))
        = (setA freshSnapshot "progress" AttrValue.null,
           Except.ok [("progress", AttrValue.null)])) := by
  have hlen : (progressList.length : Int) = 6 := rfl
  constructor
  · intro h0 hlt
    rw [hlen] at hlt
    exact process_message_single_ok "progress" _ _ (by decide)
      (decodeAttr_progress_nonneg c h0 hlt)
  · intro h
    rw [hlen] at h
    exact process_message_single_ok "progress" _ _ (by decide)
      (decodeAttr_progress_ge c h)

/-- C5, witness: index 2 yields `"Wash"`, index 6 (one past the end) yields
the absent value. -/
theorem c5_witness :
    process_message freshSnapshot (singleMsg "progress" (AttrValue.int 2))
      = (setA freshSnapshot "progress" (AttrValue.str "Wash"),
         Except.ok [("progress", AttrValue.str "Wash")]) ∧
    process_message freshSnapshot (singleMsg "progress" (AttrValue.int 6))
      = (setA freshSnapshot "progress" AttrValue.null,
         Except.ok [("progress", AttrValue.null)]) :=
  ⟨(c5_progress_positional 2).1 (by decide) (by decide),
   (c5_progress_positional 6).2 (by decide)⟩

/-- C6: whenever `process_message` returns a delta, the delta's keys are
exactly the schema attribute names whose field was present on the response
(in schema order, regardless of whether the value changed), and every
attribute absent from the frame keeps its previous snapshot value. -/
theorem c6_delta_exactly_present (attrs : List (String × AttrValue)) (msg : Message)
    (r d : List (String × AttrValue))
    (h : process_message attrs msg = (r, Except.ok d)) :
    d.map Prod.fst = (attrs.map Prod.fst).filter (fun k => (msg k).isSome) ∧
    ∀ k : String, msg k = none → getAttr r k = getAttr attrs k := by
  simp only [process_message] at h
  constructor
  · exact processGo_delta_keys _ msg attrs r d h
  · intro k hk
    have h2 := processGo_absent (attrs.map Prod.fst) msg attrs k hk
    rw [h] at h2
    exact h2

/-- C6, witness: a frame reporting only `door` produces the delta
`[("door", true)]` and leaves `power` untouched. -/
theorem c6_witness :
    ([(("door" : String), AttrValue.bool true)].map Prod.fst
       = (freshSnapshot.map Prod.fst).filter
           (fun k => ((singleMsg "door" (AttrValue.bool true)) k).isSome)) ∧
    getAttr (setA freshSnapshot "door" (AttrValue.bool true)) "power"
      = getAttr freshSnapshot "power" :=
  ⟨(c6_delta_exactly_present freshSnapshot (singleMsg "door" (AttrValue.bool true)) _ _
      (process_message_single_ok "door" (AttrValue.bool true) (AttrValue.bool true)
        (by decide) rfl)).1,
   (c6_delta_exactly_present freshSnapshot (singleMsg "door" (AttrValue.bool true)) _ _
      (process_message_single_ok "door" (AttrValue.bool true) (AttrValue.bool true)
        (by decide) rfl)).2 "power" rfl⟩

/-- C7: `set_attribute('power', True)` raises nothing, builds and submits
exactly one command — `MessagePower` with its payload set to true — and
leaves the snapshot unchanged; a subsequent `process_message` on a frame
reporting `power = true` then sets the snapshot's `power` to true. -/
theorem c7_round_trip :
    set_attribute freshSnapshot "power" (AttrValue.bool true)
      = (none, [OutboundCommand.power true], freshSnapshot) ∧
    [OutboundCommand.power true].length = 1 ∧
    getAttr (process_message freshSnapshot (singleMsg "power" (AttrValue.bool true))).1 "power"
      = some (AttrValue.bool true) := by
  refine ⟨rfl, rfl, ?_⟩
  rw [process_message_single_ok "power" (AttrValue.bool true) (AttrValue.bool true)
    (by decide) rfl]
  rfl

/-- C8: processing the identical frame twice in succession leaves the
snapshot identical after each call and returns the identical result
(delta or exception) both times. -/
theorem c8_process_message_idempotent (attrs : List (String × AttrValue)) (msg : Message) :
    process_message (process_message attrs msg).1 msg = process_message attrs msg := by
  simp only [process_message]
  rw [processGo_map_fst]
  exact processGo_idem (attrs.map Prod.fst) msg attrs

/-- C10, counterexample: a progress value of `-7` passes the
`value < len(self._progress)` guard but is below `-len`, so the positional
read raises `IndexError`: no label is stored, no delta is returned, and the
snapshot keeps its defaults — refuting the claim that every negative value
stores a label counted from the end. -/
theorem c10_counterexample :
    process_message freshSnapshot (singleMsg "progress" (AttrValue.int (-7)))
      = (freshSnapshot, Except.error ()) :=
  process_message_single_err "progress" (AttrValue.int (-7)) (by decide)
    (decodeAttr_progress_neg_err (-7) (by decide))

/-- C10, amended: a negative progress value in `[-6, -1]` is not stored as
absent — the guard only checks `value < len`, so the label counted from the
end of the list is stored and reported (e.g. `-1` yields `"Complete"`);
a value below `-6`, however, raises `IndexError`. -/
theorem c10_negative_progress (c : Int) :
    (-6 ≤ c → c < 0 →
      process_message freshSnapshot (singleMsg "progress" (AttrValue.int c))
        = (setA freshSnapshot "progress"
             (AttrValue.str (progressList.getD (c + 6).toNat "")),
           Except.ok [("progress", AttrValue.str (progressList.getD (c + 6).toNat ""))])) ∧
    (c < -6 →
      process_message freshSnapshot (singleMsg "progress" (AttrValue.int c))
        = (freshSnapshot, Except.error ())) := by
  constructor
  · intro h1 h2
    exact process_message_single_ok "progress" _ _ (by decide)
      (decodeAttr_progress_neg c h1 h2)
  · intro h
    exact process_message_single_err "progress" _ (by decide)
      (decodeAttr_progress_neg_err c h)

/-- C10, witness: progress `-1` stores and reports `"Complete"`; progress
`-8` raises. -/
theorem c10_witness :
    process_message freshSnapshot (singleMsg "progress" (AttrValue.int (-1)))
      = (setA freshSnapshot "progress" (AttrValue.str "Complete"),
         Except.ok [("progress", AttrValue.str "Complete")]) ∧
    process_message freshSnapshot (singleMsg "progress" (AttrValue.int (-8)))
      = (freshSnapshot, Except.error ()) :=
  ⟨(c10_negative_progress (-1)).1 (by decide) (by decide),
   (c10_negative_progress (-8)).2 (by decide)⟩

/-- C9: the boolean type check in `set_attribute` runs before the
writability dispatch, so even for an attribute name outside the writable
set a non-boolean value raises the value-type error — it is not silently
ignored — and no command is built. -/
theorem c9_type_check_before_dispatch (attrs : List (String × AttrValue))
    (attr : String) (v : AttrValue) (_hw : attr ∉ writableAttributes)
    (h : v.isBool = false) :
    (set_attribute attrs attr v).1 = some "[e1] Expected bool" ∧
    (set_attribute attrs attr v).2.1 = [] := by
  cases v with
  | bool b => simp [AttrValue.isBool] at h
  | null => exact ⟨rfl, rfl⟩
  | int n => exact ⟨rfl, rfl⟩
  | str s => exact ⟨rfl, rfl⟩

/-- C9, witness: `set_attribute('unknown_attr', 2)` raises the type error
and builds no command even though the name is unrecognized. -/
theorem c9_witness :
    ("unknown_attr" ∉ writableAttributes) ∧
    ((AttrValue.int 2).isBool = false) ∧
    ((set_attribute freshSnapshot "unknown_attr" (AttrValue.int 2)).1
        = some "[e1] Expected bool" ∧
     (set_attribute freshSnapshot "unknown_attr" (AttrValue.int 2)).2.1 = []) :=
  ⟨by decide, rfl,
   c9_type_check_before_dispatch freshSnapshot "unknown_attr" (AttrValue.int 2)
     (by decide) rfl⟩

end MideaE1
